import Mathlib

/-!
# Verification of the proxmox-backup server-side backup ingestion core

A shallow embedding of the data-blob codec (`src/backup/data_blob.rs`,
`src/backup/file_formats.rs`) and of the backup-session open / index
handler logic (`src/api2/backup/mod.rs`), with external collaborators
(zstd, the AEAD cipher) and repository modules absent from the source
tree (crypt config, user ids, the backup environment internals)
modelled from the specification.

Bytes are modelled as natural numbers (values < 256 where produced by
the code); byte strings as `List Nat`.
-/

namespace PBS

/-! ## Little-endian 32-bit helpers (model of `u32::from_le_bytes` / `to_le_bytes`) -/

/-- Model of `u32::to_le_bytes`: the four little-endian bytes of a 32-bit value. -/
def u32ToLe (c : Nat) : List Nat :=
  [c % 256, (c / 256) % 256, (c / 65536) % 256, (c / 16777216) % 256]

/-- Model of `u32::from_le_bytes` on a 4-byte slice (extra or missing bytes read as 0). -/
def u32FromLe (bs : List Nat) : Nat :=
  bs.getD 0 0 + 256 * bs.getD 1 0 + 65536 * bs.getD 2 0 + 16777216 * bs.getD 3 0

/-! ## CRC32 (model of the `crc32fast` hasher: standard reflected CRC-32/IEEE) -/

/-- One bit-round of the reflected CRC-32 computation with polynomial 0xEDB88320. -/
def crc32Round (c : Nat) : Nat :=
  if c % 2 = 1 then (c / 2) ^^^ 0xEDB88320 else c / 2

/-- Feed one byte into the CRC-32 state. -/
def crc32Byte (crc b : Nat) : Nat :=
  crc32Round^[8] (crc ^^^ (b % 256))

/-- CRC-32 of a byte string (model of `crc32fast::Hasher::new/update/finalize`). -/
def crc32 (bytes : List Nat) : Nat :=
  (bytes.foldl crc32Byte 0xFFFFFFFF) ^^^ 0xFFFFFFFF

/-! ## Magic numbers (`src/backup/file_formats.rs`) -/

def UNCOMPRESSED_BLOB_MAGIC_1_0 : List Nat := [66, 171, 56, 7, 190, 131, 112, 161]
def COMPRESSED_BLOB_MAGIC_1_0 : List Nat := [49, 185, 88, 66, 111, 182, 163, 127]
def ENCRYPTED_BLOB_MAGIC_1_0 : List Nat := [123, 103, 133, 190, 34, 45, 76, 240]
def ENCR_COMPR_BLOB_MAGIC_1_0 : List Nat := [230, 89, 27, 191, 11, 191, 216, 11]

/-- `size_of::<DataBlobHeader>()`: `#[repr(C,packed)] { magic: [u8; 8], crc: [u8; 4] }`. -/
def dataBlobHeaderSize : Nat := 12

/-- `offsetof!(DataBlobHeader, crc)`. -/
def crcOffset : Nat := 8

/-- The 12-byte unencrypted blob header with a zero CRC field, as built by
`DataBlob::encode` (`DataBlobHeader { magic, crc: [0; 4] }`). -/
def blobHeader (magic : List Nat) : List Nat := magic ++ [0, 0, 0, 0]

/-! ## Model of the external zstd library

`zstd::stream::copy_encode` / `zstd::block::decompress` are an external
library, not repository code; the embedding is parametrised over them.
`decompress` takes the maximum allowed decompressed size and fails
(`none`) on malformed input or overflow. -/

structure Zstd where
  compress : List Nat → List Nat
  decompress : Nat → List Nat → Option (List Nat)

/-- A zstd model obeying the round-trip law, used to instantiate witnesses:
compression is the identity. -/
def idZstd : Zstd where
  compress d := d
  decompress maxSize b := if b.length ≤ maxSize then some b else none

/-! ## Model of the crypt config

Modelled from the spec: `CryptConfig` (module `backup/crypt_config.rs`,
not present in the source tree) provides `encode_chunk`,
`decode_compressed_chunk` and `decode_uncompressed_chunk` over the
encrypted on-disk layout `magic(8) || crc32(4) || iv(16) || aead_tag(16)
|| ciphertext`, compressing first and keeping the compressed form only
when it shrinks the payload.  The AEAD cipher itself is abstract:
`encrypt` yields `(iv, tag, ciphertext)` and `decrypt` authenticates and
inverts it, failing with `none` on a bad tag. -/

structure CryptConfig where
  encrypt : List Nat → List Nat × List Nat × List Nat
  decrypt : List Nat → List Nat → List Nat → Option (List Nat)

/-- Modelled from the spec: build an encrypted blob
`magic(8) || crc32(4, zeroed) || iv(16) || tag(16) || ciphertext`. -/
def CryptConfig.encryptTo (cfg : CryptConfig) (magic : List Nat) (payload : List Nat) : List Nat :=
  let e := cfg.encrypt payload
  blobHeader magic ++ e.1 ++ e.2.1 ++ e.2.2

/-- Modelled from the spec: `CryptConfig::encode_chunk` — compress when asked,
keep the compressed form only if strictly smaller, then encrypt. -/
def CryptConfig.encode_chunk (cfg : CryptConfig) (z : Zstd) (data : List Nat)
    (compress : Bool) (magicUncomp magicComp : List Nat) : List Nat :=
  if compress then
    let cdata := z.compress data
    if cdata.length < data.length then
      cfg.encryptTo magicComp cdata
    else
      cfg.encryptTo magicUncomp data
  else
    cfg.encryptTo magicUncomp data

/-- Modelled from the spec: parse `iv(16) || tag(16) || ciphertext` after the
12-byte header and decrypt. -/
def CryptConfig.decryptRaw (cfg : CryptConfig) (raw : List Nat) : Option (List Nat) :=
  let iv := (raw.drop 12).take 16
  let tag := (raw.drop 28).take 16
  let ct := raw.drop 44
  cfg.decrypt iv tag ct

/-- Modelled from the spec: `CryptConfig::decode_uncompressed_chunk`. -/
def CryptConfig.decode_uncompressed_chunk (cfg : CryptConfig) (raw : List Nat) :
    Option (List Nat) :=
  cfg.decryptRaw raw

/-- Modelled from the spec: `CryptConfig::decode_compressed_chunk` — decrypt,
then zstd-decompress with the 16 MiB limit. -/
def CryptConfig.decode_compressed_chunk (cfg : CryptConfig) (z : Zstd) (raw : List Nat) :
    Option (List Nat) :=
  match cfg.decryptRaw raw with
  | none => none
  | some cdata => z.decompress (16 * 1024 * 1024) cdata

/-- A crypt config obeying the AEAD round-trip law, used to instantiate
witnesses: the cipher is the identity with zero IV and tag. -/
def idCryptConfig : CryptConfig where
  encrypt d := (List.replicate 16 0, List.replicate 16 0, d)
  decrypt _ _ ct := some ct

/-! ## DataBlob (`src/backup/data_blob.rs`) -/

/-- `pub struct DataBlob { raw_data: Vec<u8> }`. -/
structure DataBlob where
  raw_data : List Nat
deriving DecidableEq, Repr

/-- `DataBlob::magic`: `raw_data[0..8]`. -/
def DataBlob.magic (b : DataBlob) : List Nat := b.raw_data.take 8

/-- `DataBlob::crc`: the little-endian `u32` at `raw_data[8..12]`
(offset `offsetof!(DataBlobHeader, crc)`). -/
def DataBlob.crc (b : DataBlob) : Nat :=
  u32FromLe ((b.raw_data.drop crcOffset).take 4)

/-- `DataBlob::set_crc`: overwrite `raw_data[8..12]` with the little-endian
bytes of `crc`. -/
def DataBlob.set_crc (b : DataBlob) (crc : Nat) : DataBlob :=
  ⟨b.raw_data.take crcOffset ++ u32ToLe crc ++ b.raw_data.drop (crcOffset + 4)⟩

/-- `DataBlob::compute_crc`: CRC-32 of `raw_data[size_of::<DataBlobHeader>()..]`. -/
def DataBlob.compute_crc (b : DataBlob) : Nat :=
  crc32 (b.raw_data.drop dataBlobHeaderSize)

/-- `DataBlob::encode(data, config, compress)`. -/
def DataBlob.encode (z : Zstd) (data : List Nat) (config : Option CryptConfig)
    (compress : Bool) : Except String DataBlob :=
  if data.length > 16 * 1024 * 1024 then
    .error ("data blob too large")
  else
    match config with
    | some cfg =>
      .ok ⟨cfg.encode_chunk z data compress ENCRYPTED_BLOB_MAGIC_1_0 ENCR_COMPR_BLOB_MAGIC_1_0⟩
    | none =>
      let maxDataLen := data.length + dataBlobHeaderSize
      if compress then
        let compData := blobHeader COMPRESSED_BLOB_MAGIC_1_0 ++ z.compress data
        if compData.length < maxDataLen then
          .ok ⟨compData⟩
        else
          .ok ⟨blobHeader UNCOMPRESSED_BLOB_MAGIC_1_0 ++ data⟩
      else
        .ok ⟨blobHeader UNCOMPRESSED_BLOB_MAGIC_1_0 ++ data⟩

/-- The error cases of `DataBlob::decode` (`bail!` sites). -/
inductive DecodeError where
  | invalidMagic
  | missingKey
  | decompressFailed
  | decryptFailed
deriving DecidableEq, Repr

/-- `DataBlob::decode(self, config)`. -/
def DataBlob.decode (z : Zstd) (b : DataBlob) (config : Option CryptConfig) :
    Except DecodeError (List Nat) :=
  let magic := b.magic
  if magic = UNCOMPRESSED_BLOB_MAGIC_1_0 then
    .ok (b.raw_data.drop dataBlobHeaderSize)
  else if magic = COMPRESSED_BLOB_MAGIC_1_0 then
    match z.decompress (16 * 1024 * 1024) (b.raw_data.drop dataBlobHeaderSize) with
    | some data => .ok data
    | none => .error .decompressFailed
  else if magic = ENCR_COMPR_BLOB_MAGIC_1_0 ∨ magic = ENCRYPTED_BLOB_MAGIC_1_0 then
    match config with
    | some cfg =>
      if magic = ENCR_COMPR_BLOB_MAGIC_1_0 then
        match cfg.decode_compressed_chunk z b.raw_data with
        | some data => .ok data
        | none => .error .decryptFailed
      else
        match cfg.decode_uncompressed_chunk b.raw_data with
        | some data => .ok data
        | none => .error .decryptFailed
    | none => .error .missingKey
  else
    .error .invalidMagic

/-- Flip bit `bitIdx` of byte `byteIdx` of a byte string. -/
def flipBit (bytes : List Nat) (byteIdx bitIdx : Nat) : List Nat :=
  bytes.set byteIdx ((bytes.getD byteIdx 0) ^^^ (1 <<< bitIdx))

/-! ## Session open (`upgrade_to_backup_protocol`, `src/api2/backup/mod.rs`)

The embedding starts after the transport/privilege steps that the spec
treats as external collaborators (HTTP upgrade header, ACL check) and
covers the benchmark restriction, the group lock and owner, the
ownership check, previous-snapshot selection, the backup-time check and
the creation of the snapshot directory, in source order. -/

/-- Modelled from the spec: `Authid` (module `pbs-api-types/src/userid.rs`,
not present in the source tree) — an authenticated identity, either a
user or one of the user's API tokens. -/
structure Authid where
  user : String
  token : Option String
deriving DecidableEq, Repr

/-- Modelled from the spec: `Authid::is_token`. -/
def Authid.is_token (a : Authid) : Bool := a.token.isSome

/-- Modelled from the spec: `Authid::from(userid)` — the plain-user identity. -/
def Authid.ofUser (user : String) : Authid := ⟨user, none⟩

/-- `VerifyState` of a snapshot manifest (`Ok` / `Failed`). -/
inductive VerifyState where
  | ok
  | failed
deriving DecidableEq, Repr

/-- A finished snapshot of the backup group: its backup time and the
verify-state parsed from its manifest (`none` models a missing or
unparseable `verify_state`, i.e. `serde_json::from_value` returning
`Err`). -/
structure SnapshotInfo where
  time : Int
  verify : Option VerifyState
deriving DecidableEq, Repr

/-- The datastore state visible to one `upgrade_to_backup_protocol` call:
the owner of the backup group (if the group already exists), its
finished snapshots, and the backup times whose snapshot directory
already exists on disk. -/
structure StoreState where
  groupOwner : Option Authid
  snapshots : List SnapshotInfo
  dirTimes : List Int
deriving DecidableEq, Repr

/-- The parameters of a session open. -/
structure OpenParams where
  authId : Authid
  backupType : String
  backupId : String
  backupTime : Int
  debug : Bool
  benchmark : Bool
deriving DecidableEq, Repr

/-- The `bail!` sites of `upgrade_to_backup_protocol` covered by the model. -/
inductive OpenError where
  | benchmarkFlagMissing
  | benchmarkWrongGroup
  | ownerCheckFailed
  | timeRegression
  | dirAlreadyExists
deriving DecidableEq, Repr

/-- The `BackupEnvironment` data fixed at session open. -/
structure BackupSession where
  authId : Authid
  benchmark : Bool
  debug : Bool
  lastBackup : Option SnapshotInfo
deriving DecidableEq, Repr

/-- Modelled from the spec: `BackupInfo::last_backup` (module
`backup/backup_info.rs`, not present in the source tree) returns the
most recent finished snapshot of the group, or `none` for an empty
group. -/
def lastFinished (snapshots : List SnapshotInfo) : Option SnapshotInfo :=
  snapshots.foldl
    (fun acc i => match acc with
      | none => some i
      | some j => if j.time < i.time then some i else some j)
    none

/-- The previous-snapshot selection of `upgrade_to_backup_protocol`
(lines 123-143): take the most recent finished snapshot; keep it unless
its manifest's verify-state parsed as `Failed`; a missing or unparseable
verify-state is treated as valid. -/
def selectedLast (snapshots : List SnapshotInfo) : Option SnapshotInfo :=
  match lastFinished snapshots with
  | none => none
  | some info =>
    match info.verify with
    | some .ok => some info
    | some .failed => none
    | none => some info

/-- The spec's words for the previous-snapshot selection, for comparison
with `selectedLast`: the most recent snapshot in the group whose
verify-state is not `Failed`. -/
def specSelectedPrevious (snapshots : List SnapshotInfo) : Option SnapshotInfo :=
  lastFinished (snapshots.filter (fun i => i.verify ≠ some VerifyState.failed))

/-- The ownership condition of `upgrade_to_backup_protocol` (lines
115-117): `owner == auth_id || (owner.is_token() &&
Authid::from(owner.user().clone()) == auth_id)`. -/
def correctOwner (owner authId : Authid) : Prop :=
  owner = authId ∨ (owner.is_token = true ∧ Authid.ofUser owner.user = authId)

instance (owner authId : Authid) : Decidable (correctOwner owner authId) := by
  unfold correctOwner; infer_instance

/-- The backup-time regression condition (lines 147-149): a previous
snapshot was selected and the new backup time is not strictly greater. -/
def timeRegressed (lastBackup : Option SnapshotInfo) (t : Int) : Bool :=
  match lastBackup with
  | some last => decide (t ≤ last.time)
  | none => false

/-- `upgrade_to_backup_protocol` (`src/api2/backup/mod.rs`, lines
99-160), from the benchmark/worker-type decision to the creation of the
snapshot directory.  Returns the session-open outcome together with a
flag telling whether a new snapshot directory was created
(`create_locked_backup_dir` succeeded with `is_new`). -/
def upgrade_to_backup_protocol (p : OpenParams) (s : StoreState) :
    Except OpenError BackupSession × Bool :=
  -- worker type / benchmark restriction (lines 99-109)
  if p.backupType = "host" ∧ p.backupId = "benchmark" then
    if p.benchmark = false then (.error .benchmarkFlagMissing, false)
    else upgradeAfterWorkerType p s true
  else
    if p.benchmark = true then (.error .benchmarkWrongGroup, false)
    else upgradeAfterWorkerType p s false
where
  upgradeAfterWorkerType (p : OpenParams) (s : StoreState) (isBenchmark : Bool) :
      Except OpenError BackupSession × Bool :=
    -- create_locked_backup_group: a new group is owned by the caller (line 112)
    let owner := s.groupOwner.getD p.authId
    -- permission check (lines 114-121)
    if ¬ correctOwner owner p.authId ∧ isBenchmark = false then
      (.error .ownerCheckFailed, false)
    else
      -- previous-snapshot selection (lines 123-143)
      let last_backup := selectedLast s.snapshots
      -- backup-time regression check (lines 147-149)
      if timeRegressed last_backup p.backupTime then
        (.error .timeRegression, false)
      else
        -- create_locked_backup_dir (lines 159-160)
        if p.backupTime ∈ s.dirTimes then
          (.error .dirAlreadyExists, false)
        else
          (.ok { authId := p.authId, benchmark := isBenchmark, debug := p.debug,
                 lastBackup := last_backup }, true)

/-! ## Backup environment and index handlers
(`src/api2/backup/mod.rs` handlers; the `BackupEnvironment` internals of
`src/api2/backup/environment.rs` are not present in the source tree and
are modelled from the spec). -/

/-- A chunk digest (32 bytes, treated as an opaque identifier). -/
abbrev Digest := List Nat

/-- Association-list lookup, used for the session's maps. -/
def lookupAssoc {α β : Type} [DecidableEq α] : List (α × β) → α → Option β
  | [], _ => none
  | (k, v) :: rest, a => if k = a then some v else lookupAssoc rest a

/-- Association-list update of an existing key. -/
def setAssoc {α β : Type} [DecidableEq α] : List (α × β) → α → β → List (α × β)
  | [], _, _ => []
  | (k, v) :: rest, a, b => if k = a then (a, b) :: rest else (k, v) :: setAssoc rest a b

/-- A previous snapshot's fixed indices, by archive name: the slot
contents (digest per slot) that `open_fixed_reader` would expose. -/
structure PrevBackupIndexes where
  fixedIndices : List (String × List (Option Digest))
deriving DecidableEq

/-- Modelled from the spec: the state of a fixed-index writer registered
in the session (`register_fixed_writer`). -/
structure FixedWriterState where
  name : String
  slots : List (Option Digest)
  size : Nat
  chunk_size : Nat
  incremental : Bool
deriving DecidableEq

/-- Modelled from the spec: the state of a dynamic-index writer
registered in the session — the last-seen end offset, the chunk count
and the ordered digest list feeding the digest-list checksum. -/
structure DynWriterState where
  name : String
  offset : Nat
  chunk_count : Nat
  digests : List Digest
deriving DecidableEq

/-- Modelled from the spec: the mutable per-session state of the
`BackupEnvironment` — the finished flag, the previous-snapshot handle,
the registered-chunk map `digest → decoded size`, the writer registries
and the next writer id. -/
structure BackupEnv where
  finished : Bool
  lastBackup : Option PrevBackupIndexes
  knownChunks : List (Digest × Nat)
  fixedWriters : List (Nat × FixedWriterState)
  dynWriters : List (Nat × DynWriterState)
  nextWid : Nat
deriving DecidableEq

/-- Modelled from the spec: `BackupEnvironment::lookup_chunk` — the
decoded size recorded for a digest this session. -/
def BackupEnv.lookup_chunk (env : BackupEnv) (digest : Digest) : Option Nat :=
  lookupAssoc env.knownChunks digest

/-- The errors of the index handlers. -/
inductive HandlerError where
  | wrongExtension
  | noValidPreviousBackup
  | noPreviousArchive
  | csumMismatch
  | sessionClosed
  | nameInUse
  | unknownChunk
  | unknownWriter
  | nonMonotonic
  | gap
  | outOfRange
  | offsetMisaligned
  | sizeMismatch
deriving DecidableEq, Repr

/-- Modelled from the spec: `BackupEnvironment::register_fixed_writer` —
fails with `SessionClosed` on a finished session and `NameInUse` on a
duplicate archive name, otherwise assigns the next writer id. -/
def BackupEnv.register_fixed_writer (env : BackupEnv) (w : FixedWriterState) :
    Except HandlerError Nat × BackupEnv :=
  if env.finished then (.error .sessionClosed, env)
  else if (env.fixedWriters.map (fun kv => kv.2.name)).contains w.name then
    (.error .nameInUse, env)
  else
    (.ok env.nextWid,
     { env with fixedWriters := (env.nextWid, w) :: env.fixedWriters,
                nextWid := env.nextWid + 1 })

/-- Model of `str::ends_with` on the character lists of the two strings
(`String.endsWith` itself is defined by well-founded recursion and does
not reduce). -/
def strEndsWith (s suffix : String) : Bool :=
  List.isSuffixOf suffix.toList s.toList

/-- `create_fixed_index` (`src/api2/backup/mod.rs`, lines 385-450),
parametrised over the digest-list checksum function `H` of the fixed
index (`FixedIndexReader::compute_csum`, modelled from the spec as an
abstract hash of the slot contents).  Returns the outcome paired with
the (possibly updated) environment; every error leaves the environment
untouched, i.e. the session stays open. -/
def create_fixed_index (H : List (Option Digest) → Digest) (env : BackupEnv)
    (name : String) (size : Nat) (reuse_csum : Option Digest) :
    Except HandlerError Nat × BackupEnv :=
  if ¬ strEndsWith name (".fidx") then (.error .wrongExtension, env)
  else
    let chunk_size := 4096 * 1024
    match reuse_csum with
    | some csum =>
      -- incremental mode
      match env.lastBackup with
      | none => (.error .noValidPreviousBackup, env)
      | some prev =>
        match lookupAssoc prev.fixedIndices name with
        | none => (.error .noPreviousArchive, env)
        | some slots =>
          if H slots ≠ csum then (.error .csumMismatch, env)
          else
            -- create_fixed_writer + clone_data_from(reader)
            env.register_fixed_writer
              { name := name, slots := slots, size := size,
                chunk_size := chunk_size, incremental := true }
    | none =>
      env.register_fixed_writer
        { name := name, slots := List.replicate ((size + chunk_size - 1) / chunk_size) none,
          size := size, chunk_size := chunk_size, incremental := false }

/-- Modelled from the spec: `BackupEnvironment::dynamic_writer_append_chunk`
with the dynamic-index append rules (§4.3.2): `NonMonotonic` when the
offset is below the writer's position, `Gap` when it leaves a hole,
otherwise record `(offset + size, digest)`. -/
def BackupEnv.dynamic_writer_append_chunk (env : BackupEnv) (wid : Nat)
    (offset size : Nat) (digest : Digest) : Except HandlerError BackupEnv :=
  if env.finished then .error .sessionClosed
  else
    match lookupAssoc env.dynWriters wid with
    | none => .error .unknownWriter
    | some w =>
      if offset < w.offset then .error .nonMonotonic
      else if offset ≠ w.offset then .error .gap
      else
        .ok { env with
              dynWriters := setAssoc env.dynWriters wid
                { w with offset := offset + size,
                         chunk_count := w.chunk_count + 1,
                         digests := w.digests ++ [digest] } }

/-- Modelled from the spec: `BackupEnvironment::fixed_writer_append_chunk`
with the fixed-index append rules (§4.3.1): `OutOfRange` when
`offset + size > S`, `OffsetMisaligned` unless the offset is a chunk
boundary, `SizeMismatch` unless the size is the chunk size (or the final
partial size), otherwise write the digest into slot `offset / C`. -/
def BackupEnv.fixed_writer_append_chunk (env : BackupEnv) (wid : Nat)
    (offset size : Nat) (digest : Digest) : Except HandlerError BackupEnv :=
  if env.finished then .error .sessionClosed
  else
    match lookupAssoc env.fixedWriters wid with
    | none => .error .unknownWriter
    | some w =>
      if offset + size > w.size then .error .outOfRange
      else if offset % w.chunk_size ≠ 0 then .error .offsetMisaligned
      else if (if offset + w.chunk_size ≤ w.size then size ≠ w.chunk_size
               else size ≠ w.size - offset) then .error .sizeMismatch
      else
        .ok { env with
              fixedWriters := setAssoc env.fixedWriters wid
                { w with slots := w.slots.set (offset / w.chunk_size) (some digest) } }

/-- `dynamic_append` (`src/api2/backup/mod.rs`, lines 485-515): for each
`(offset, digest)` pair in order, look the digest up in the session's
registered-chunk map — failing with `UnknownChunk` (`no such chunk`)
when absent — and append it to the writer.  The environment reflects the
entries appended before a failure. -/
def dynamic_append (env : BackupEnv) (wid : Nat) (entries : List (Nat × Digest)) :
    Except HandlerError Unit × BackupEnv :=
  match entries with
  | [] => (.ok (), env)
  | (offset, digest) :: rest =>
    match env.lookup_chunk digest with
    | none => (.error .unknownChunk, env)
    | some size =>
      match env.dynamic_writer_append_chunk wid offset size digest with
      | .error e => (.error e, env)
      | .ok env1 => dynamic_append env1 wid rest

/-- `fixed_append` (`src/api2/backup/mod.rs`, lines 550-580): same shape
as `dynamic_append`, over the fixed writer. -/
def fixed_append (env : BackupEnv) (wid : Nat) (entries : List (Nat × Digest)) :
    Except HandlerError Unit × BackupEnv :=
  match entries with
  | [] => (.ok (), env)
  | (offset, digest) :: rest =>
    match env.lookup_chunk digest with
    | none => (.error .unknownChunk, env)
    | some size =>
      match env.fixed_writer_append_chunk wid offset size digest with
      | .error e => (.error e, env)
      | .ok env1 => fixed_append env1 wid rest

/-! ## Helper lemmas -/

lemma take8_header_uncomp (x : List Nat) :
    ((blobHeader UNCOMPRESSED_BLOB_MAGIC_1_0 ++ x).take 8) = UNCOMPRESSED_BLOB_MAGIC_1_0 := rfl

lemma take8_header_comp (x : List Nat) :
    ((blobHeader COMPRESSED_BLOB_MAGIC_1_0 ++ x).take 8) = COMPRESSED_BLOB_MAGIC_1_0 := rfl

lemma take8_header_enc (x : List Nat) :
    ((blobHeader ENCRYPTED_BLOB_MAGIC_1_0 ++ x).take 8) = ENCRYPTED_BLOB_MAGIC_1_0 := rfl

lemma take8_header_enc_comp (x : List Nat) :
    ((blobHeader ENCR_COMPR_BLOB_MAGIC_1_0 ++ x).take 8) = ENCR_COMPR_BLOB_MAGIC_1_0 := rfl

lemma drop12_header_uncomp (x : List Nat) :
    ((blobHeader UNCOMPRESSED_BLOB_MAGIC_1_0 ++ x).drop 12) = x := rfl

lemma drop12_header_comp (x : List Nat) :
    ((blobHeader COMPRESSED_BLOB_MAGIC_1_0 ++ x).drop 12) = x := rfl

lemma drop12_header_enc (x : List Nat) :
    ((blobHeader ENCRYPTED_BLOB_MAGIC_1_0 ++ x).drop 12) = x := rfl

lemma drop12_header_enc_comp (x : List Nat) :
    ((blobHeader ENCR_COMPR_BLOB_MAGIC_1_0 ++ x).drop 12) = x := rfl

lemma u32_le_roundtrip (c : Nat) (h : c < 4294967296) : u32FromLe (u32ToLe c) = c := by
  simp only [u32ToLe, u32FromLe, List.getD_cons_zero, List.getD_cons_succ]
  omega

/-! ## C9 — CRC field placement and coverage -/

/-- C9: `compute_crc` is the CRC-32 of the bytes after the 12-byte header
(excluding magic and CRC field), `crc()` reads the little-endian 32-bit
value at bytes 8..12, and `set_crc c` makes a subsequent `crc()` return
`c` while leaving every byte outside 8..12 (and the blob's length, and
hence `compute_crc`) unchanged. -/
theorem crc_field_placement (b : DataBlob) (c : Nat)
    (hlen : 12 ≤ b.raw_data.length) (hc : c < 4294967296) :
    (b.set_crc c).crc = c ∧
    (b.set_crc c).raw_data.length = b.raw_data.length ∧
    (∀ i, i < 8 ∨ 12 ≤ i → (b.set_crc c).raw_data[i]? = b.raw_data[i]?) ∧
    (b.set_crc c).compute_crc = b.compute_crc ∧
    b.compute_crc = crc32 (b.raw_data.drop 12) ∧
    b.crc = u32FromLe ((b.raw_data.drop 8).take 4) := by
  have htake : (b.raw_data.take 8).length = 8 := by
    simp [List.length_take]; omega
  have hle : (u32ToLe c).length = 4 := by simp [u32ToLe]
  have h12 : (b.raw_data.take 8 ++ u32ToLe c).length = 12 := by
    simp only [List.length_append, htake, hle]
  have hraw : (b.set_crc c).raw_data
      = b.raw_data.take 8 ++ u32ToLe c ++ b.raw_data.drop 12 := rfl
  refine ⟨?_, ?_, ?_, ?_, rfl, rfl⟩
  · -- crc (set_crc b c) = c
    show u32FromLe ((((b.set_crc c).raw_data).drop 8).take 4) = c
    rw [hraw, List.append_assoc, List.drop_left' htake, List.take_left' hle]
    exact u32_le_roundtrip c hc
  · -- length unchanged
    rw [hraw]
    simp only [List.length_append, htake, hle, List.length_drop]
    omega
  · -- bytes outside 8..12 unchanged
    intro i hi
    rw [hraw]
    rcases hi with hi | hi
    · rw [List.append_assoc,
          List.getElem?_append_left (by omega : i < (b.raw_data.take 8).length),
          List.getElem?_take_of_lt (by omega : i < 8)]
    · rw [List.getElem?_append_right (by omega : (b.raw_data.take 8 ++ u32ToLe c).length ≤ i),
          h12, List.getElem?_drop]
      congr 1
      omega
  · -- compute_crc unchanged
    show crc32 (((b.set_crc c).raw_data).drop 12) = _
    rw [hraw, List.drop_left' h12]
    rfl

/-- C9 witness: a concrete 13-byte blob. -/
theorem crc_field_placement_witness :
    ((DataBlob.mk [66, 171, 56, 7, 190, 131, 112, 161, 0, 0, 0, 0, 7]).set_crc 305419896).crc
      = 305419896 :=
  (crc_field_placement ⟨[66, 171, 56, 7, 190, 131, 112, 161, 0, 0, 0, 0, 7]⟩ 305419896
    (by decide) (by decide)).1

/-! ## C8 — encode size limit and compression skip -/

/-- C8: `encode` fails for every payload larger than 16 MiB; for an
unencrypted encode with `compress = true`, the result carries the
compressed-blob magic exactly when the zstd output plus the 12-byte
header is strictly smaller than the payload length plus the header, and
otherwise carries the uncompressed-blob magic with the payload stored
verbatim after the header. -/
theorem encode_size_limit_and_compression_skip (z : Zstd) (data : List Nat) :
    (∀ cfg compress, 16 * 1024 * 1024 < data.length →
        DataBlob.encode z data cfg compress = .error ("data blob too large")) ∧
    (data.length ≤ 16 * 1024 * 1024 →
      ∀ b, DataBlob.encode z data none true = .ok b →
        (b.magic = COMPRESSED_BLOB_MAGIC_1_0 ↔
          dataBlobHeaderSize + (z.compress data).length < data.length + dataBlobHeaderSize) ∧
        (¬ dataBlobHeaderSize + (z.compress data).length < data.length + dataBlobHeaderSize →
          b.raw_data = blobHeader UNCOMPRESSED_BLOB_MAGIC_1_0 ++ data)) := by
  constructor
  · intro cfg compress hbig
    unfold DataBlob.encode
    rw [if_pos (by omega)]
  · intro hsmall b henc
    have hcomplen : (blobHeader COMPRESSED_BLOB_MAGIC_1_0 ++ z.compress data).length
        = dataBlobHeaderSize + (z.compress data).length := by
      simp only [blobHeader, dataBlobHeaderSize, COMPRESSED_BLOB_MAGIC_1_0, List.length_append,
        List.length_cons, List.length_nil]
    unfold DataBlob.encode at henc
    rw [if_neg (by omega)] at henc
    simp only at henc
    rw [hcomplen] at henc
    by_cases hlt : dataBlobHeaderSize + (z.compress data).length < data.length + dataBlobHeaderSize
    · rw [if_pos hlt] at henc
      cases henc
      refine ⟨⟨fun _ => hlt, fun _ => take8_header_comp (z.compress data)⟩, fun h => absurd hlt h⟩
    · rw [if_neg hlt] at henc
      cases henc
      refine ⟨⟨fun h => ?_, fun h => absurd h hlt⟩, fun _ => rfl⟩
      have h2 : UNCOMPRESSED_BLOB_MAGIC_1_0 = COMPRESSED_BLOB_MAGIC_1_0 := h
      exact absurd h2 (by decide)

/-- C8 witness: an incompressible 1-byte payload under the identity-zstd
model is stored uncompressed and verbatim. -/
theorem encode_size_limit_witness :
    (DataBlob.mk (blobHeader UNCOMPRESSED_BLOB_MAGIC_1_0 ++ [7])).raw_data
      = blobHeader UNCOMPRESSED_BLOB_MAGIC_1_0 ++ [7] :=
  ((encode_size_limit_and_compression_skip idZstd [7]).2 (by decide)
    ⟨blobHeader UNCOMPRESSED_BLOB_MAGIC_1_0 ++ [7]⟩ rfl).2 (by decide)

/-! ## Decode shape lemmas -/

lemma comp_ne_uncomp : COMPRESSED_BLOB_MAGIC_1_0 ≠ UNCOMPRESSED_BLOB_MAGIC_1_0 := by decide
lemma enc_ne_uncomp : ENCRYPTED_BLOB_MAGIC_1_0 ≠ UNCOMPRESSED_BLOB_MAGIC_1_0 := by decide
lemma enc_ne_comp : ENCRYPTED_BLOB_MAGIC_1_0 ≠ COMPRESSED_BLOB_MAGIC_1_0 := by decide
lemma enc_ne_encc : ENCRYPTED_BLOB_MAGIC_1_0 ≠ ENCR_COMPR_BLOB_MAGIC_1_0 := by decide
lemma encc_ne_uncomp : ENCR_COMPR_BLOB_MAGIC_1_0 ≠ UNCOMPRESSED_BLOB_MAGIC_1_0 := by decide
lemma encc_ne_comp : ENCR_COMPR_BLOB_MAGIC_1_0 ≠ COMPRESSED_BLOB_MAGIC_1_0 := by decide

lemma decode_uncomp (z : Zstd) (cfg : Option CryptConfig) (p : List Nat) :
    DataBlob.decode z ⟨blobHeader UNCOMPRESSED_BLOB_MAGIC_1_0 ++ p⟩ cfg = .ok p := by
  simp [DataBlob.decode, DataBlob.magic, take8_header_uncomp, drop12_header_uncomp,
    dataBlobHeaderSize]

lemma decode_comp (z : Zstd) (cfg : Option CryptConfig) (p c : List Nat)
    (h : z.decompress (16 * 1024 * 1024) c = some p) :
    DataBlob.decode z ⟨blobHeader COMPRESSED_BLOB_MAGIC_1_0 ++ c⟩ cfg = .ok p := by
  simp [DataBlob.decode, DataBlob.magic, take8_header_comp, drop12_header_comp,
    dataBlobHeaderSize, h, comp_ne_uncomp]

lemma decryptRaw_parse (cfg : CryptConfig) (M iv tag ct : List Nat) (hM : M.length = 8)
    (hiv : iv.length = 16) (htag : tag.length = 16) :
    cfg.decryptRaw (blobHeader M ++ (iv ++ (tag ++ ct))) = cfg.decrypt iv tag ct := by
  have hhd : (blobHeader M).length = 12 := by simp [blobHeader, hM]
  have h28 : (blobHeader M ++ iv).length = 28 := by simp [blobHeader, hM, hiv]
  have h44 : ((blobHeader M ++ iv) ++ tag).length = 44 := by simp [blobHeader, hM, hiv, htag]
  have e28 : blobHeader M ++ (iv ++ (tag ++ ct)) = (blobHeader M ++ iv) ++ (tag ++ ct) := by
    simp [List.append_assoc]
  have e44 : blobHeader M ++ (iv ++ (tag ++ ct)) = ((blobHeader M ++ iv) ++ tag) ++ ct := by
    simp [List.append_assoc]
  unfold CryptConfig.decryptRaw
  rw [List.drop_left' hhd, List.take_left' hiv]
  conv in List.drop 28 _ => rw [e28]
  rw [List.drop_left' h28, List.take_left' htag]
  conv in List.drop 44 _ => rw [e44]
  rw [List.drop_left' h44]

lemma decode_enc_uncomp (z : Zstd) (cfg : CryptConfig) (iv tag ct p : List Nat)
    (hiv : iv.length = 16) (htag : tag.length = 16)
    (hdec : cfg.decrypt iv tag ct = some p) :
    DataBlob.decode z ⟨blobHeader ENCRYPTED_BLOB_MAGIC_1_0 ++ (iv ++ (tag ++ ct))⟩ (some cfg)
      = .ok p := by
  have hparse := decryptRaw_parse cfg ENCRYPTED_BLOB_MAGIC_1_0 iv tag ct rfl hiv htag
  simp [DataBlob.decode, DataBlob.magic, take8_header_enc,
    CryptConfig.decode_uncompressed_chunk, hparse, hdec,
    enc_ne_uncomp, enc_ne_comp, enc_ne_encc]

lemma decode_enc_comp (z : Zstd) (cfg : CryptConfig) (iv tag ct cdata p : List Nat)
    (hiv : iv.length = 16) (htag : tag.length = 16)
    (hdec : cfg.decrypt iv tag ct = some cdata)
    (hz : z.decompress (16 * 1024 * 1024) cdata = some p) :
    DataBlob.decode z ⟨blobHeader ENCR_COMPR_BLOB_MAGIC_1_0 ++ (iv ++ (tag ++ ct))⟩ (some cfg)
      = .ok p := by
  have hparse := decryptRaw_parse cfg ENCR_COMPR_BLOB_MAGIC_1_0 iv tag ct rfl hiv htag
  simp [DataBlob.decode, DataBlob.magic, take8_header_enc_comp,
    CryptConfig.decode_compressed_chunk, hparse, hdec, hz,
    encc_ne_uncomp, encc_ne_comp]

lemma encryptTo_shape (cfg : CryptConfig) (M d : List Nat) :
    cfg.encryptTo M d
      = blobHeader M ++ ((cfg.encrypt d).1 ++ ((cfg.encrypt d).2.1 ++ (cfg.encrypt d).2.2)) := by
  simp [CryptConfig.encryptTo, List.append_assoc]

/-! ## C1 — codec round-trip -/

/-- C1: for every payload of at most 16 MiB, every optional crypt config
and every compress flag, decoding the encoded blob with the same config
returns exactly the payload.  The external zstd library and the AEAD
cipher are assumed to satisfy their round-trip laws (`hz`, `hcfg`). -/
theorem codec_roundtrip (z : Zstd) (config : Option CryptConfig) (compress : Bool)
    (p : List Nat) (hp : p.length ≤ 16 * 1024 * 1024)
    (hz : ∀ d, d.length ≤ 16 * 1024 * 1024 →
        z.decompress (16 * 1024 * 1024) (z.compress d) = some d)
    (hcfg : ∀ cfg, config = some cfg → ∀ d,
        (cfg.encrypt d).1.length = 16 ∧ (cfg.encrypt d).2.1.length = 16 ∧
        cfg.decrypt (cfg.encrypt d).1 (cfg.encrypt d).2.1 (cfg.encrypt d).2.2 = some d) :
    ∀ b, DataBlob.encode z p config compress = .ok b →
      DataBlob.decode z b config = .ok p := by
  intro b henc
  unfold DataBlob.encode at henc
  rw [if_neg (by omega)] at henc
  cases config with
  | none =>
    simp only at henc
    cases compress with
    | false =>
      rw [if_neg (by decide)] at henc
      cases henc
      exact decode_uncomp z none p
    | true =>
      rw [if_pos rfl] at henc
      by_cases hlt : (blobHeader COMPRESSED_BLOB_MAGIC_1_0 ++ z.compress p).length
          < p.length + dataBlobHeaderSize
      · rw [if_pos hlt] at henc
        cases henc
        exact decode_comp z none p (z.compress p) (hz p hp)
      · rw [if_neg hlt] at henc
        cases henc
        exact decode_uncomp z none p
  | some cfg =>
    simp only at henc
    cases henc
    have h := hcfg cfg rfl
    unfold CryptConfig.encode_chunk
    cases compress with
    | false =>
      rw [if_neg (by decide), encryptTo_shape]
      exact decode_enc_uncomp z cfg _ _ _ p (h p).1 (h p).2.1 (h p).2.2
    | true =>
      rw [if_pos rfl]
      by_cases hlt : (z.compress p).length < p.length
      · rw [if_pos hlt, encryptTo_shape]
        exact decode_enc_comp z cfg _ _ _ (z.compress p) p
          (h (z.compress p)).1 (h (z.compress p)).2.1 (h (z.compress p)).2.2 (hz p hp)
      · rw [if_neg hlt, encryptTo_shape]
        exact decode_enc_uncomp z cfg _ _ _ p (h p).1 (h p).2.1 (h p).2.2

/-- C1 witness: round-trip of a concrete 3-byte payload through the
encrypted encoding under the identity zstd and cipher models. -/
theorem codec_roundtrip_witness :
    DataBlob.decode idZstd
      ⟨blobHeader ENCRYPTED_BLOB_MAGIC_1_0 ++ List.replicate 16 0 ++ List.replicate 16 0
        ++ [1, 2, 3]⟩
      (some idCryptConfig) = .ok [1, 2, 3] :=
  codec_roundtrip idZstd (some idCryptConfig) true [1, 2, 3] (by decide)
    (fun d hd => by simp [idZstd, hd])
    (fun cfg hc d => by
      cases hc
      exact ⟨rfl, rfl, rfl⟩)
    ⟨blobHeader ENCRYPTED_BLOB_MAGIC_1_0 ++ List.replicate 16 0 ++ List.replicate 16 0
      ++ [1, 2, 3]⟩
    rfl

/-! ## C2 — decode error behaviour (corrected)

`DataBlob::decode` fails with `InvalidMagic` on an unknown magic and
with `MissingKey` on an encrypted magic without a crypt config, but it
performs no CRC verification at all: a bit flip outside the magic of an
unencrypted blob is not detected by `decode` (the counterexample flips a
bit of the CRC field itself and `decode` still succeeds). -/

/-- C2 counterexample: take the encoded blob of payload `[7]` with its
CRC field set by `set_crc(compute_crc())`, flip bit 0 of byte 8 (the
first CRC byte — outside the 8-byte magic): the result differs from the
original, has the same magic, and `decode` succeeds with the original
payload instead of failing with `CrcMismatch`. -/
theorem decode_tamper_counterexample :
    (DataBlob.mk (flipBit ((DataBlob.mk (blobHeader UNCOMPRESSED_BLOB_MAGIC_1_0 ++ [7])).set_crc
        (DataBlob.compute_crc ⟨blobHeader UNCOMPRESSED_BLOB_MAGIC_1_0 ++ [7]⟩)).raw_data 8 0)).raw_data
      ≠ ((DataBlob.mk (blobHeader UNCOMPRESSED_BLOB_MAGIC_1_0 ++ [7])).set_crc
        (DataBlob.compute_crc ⟨blobHeader UNCOMPRESSED_BLOB_MAGIC_1_0 ++ [7]⟩)).raw_data ∧
    (DataBlob.mk (flipBit ((DataBlob.mk (blobHeader UNCOMPRESSED_BLOB_MAGIC_1_0 ++ [7])).set_crc
        (DataBlob.compute_crc ⟨blobHeader UNCOMPRESSED_BLOB_MAGIC_1_0 ++ [7]⟩)).raw_data 8 0)).magic
      = UNCOMPRESSED_BLOB_MAGIC_1_0 ∧
    DataBlob.decode idZstd
      ⟨flipBit ((DataBlob.mk (blobHeader UNCOMPRESSED_BLOB_MAGIC_1_0 ++ [7])).set_crc
        (DataBlob.compute_crc ⟨blobHeader UNCOMPRESSED_BLOB_MAGIC_1_0 ++ [7]⟩)).raw_data 8 0⟩
      none = .ok [7] := by
  refine ⟨by decide, by decide, rfl⟩

/-- C2 amended: for every byte sequence of at least 8 bytes, `decode`
fails with `InvalidMagic` when the first 8 bytes match none of the four
blob magics, and with `MissingKey` when they match an encrypted variant
and no crypt config is supplied; `decode` performs no CRC check, so a
bit flip outside the magic of an unencrypted blob can go undetected. -/
theorem decode_error_behaviour (z : Zstd) (config : Option CryptConfig) (raw : List Nat)
    (hlen : 8 ≤ raw.length) :
    (raw.take 8 ∉ [UNCOMPRESSED_BLOB_MAGIC_1_0, COMPRESSED_BLOB_MAGIC_1_0,
        ENCR_COMPR_BLOB_MAGIC_1_0, ENCRYPTED_BLOB_MAGIC_1_0] →
      DataBlob.decode z ⟨raw⟩ config = .error .invalidMagic) ∧
    ((raw.take 8 = ENCR_COMPR_BLOB_MAGIC_1_0 ∨ raw.take 8 = ENCRYPTED_BLOB_MAGIC_1_0) →
      DataBlob.decode z ⟨raw⟩ none = .error .missingKey) := by
  constructor
  · intro hnot
    simp only [List.mem_cons, List.not_mem_nil, or_false, not_or] at hnot
    obtain ⟨h1, h2, h3, h4⟩ := hnot
    unfold DataBlob.decode DataBlob.magic
    rw [if_neg h1, if_neg h2, if_neg (by tauto)]
  · intro hm
    have h1 : ¬ List.take 8 raw = UNCOMPRESSED_BLOB_MAGIC_1_0 := by
      rcases hm with hm | hm <;> (rw [hm]; decide)
    have h2 : ¬ List.take 8 raw = COMPRESSED_BLOB_MAGIC_1_0 := by
      rcases hm with hm | hm <;> (rw [hm]; decide)
    unfold DataBlob.decode DataBlob.magic
    rw [if_neg h1, if_neg h2, if_pos hm]

/-- C2 witness: a blob of 8 zero bytes has an unknown magic and decodes
to `InvalidMagic`; an encrypted-magic blob without a key decodes to
`MissingKey`. -/
theorem decode_error_behaviour_witness :
    DataBlob.decode idZstd ⟨[0, 0, 0, 0, 0, 0, 0, 0]⟩ none = .error .invalidMagic :=
  (decode_error_behaviour idZstd none [0, 0, 0, 0, 0, 0, 0, 0] (by decide)).1 (by decide)

/-! ## C3 — ownership check at session open (corrected)

The source accepts when the group owner equals the caller, **or the
group owner is an API token whose owning user is the caller** (the
reverse of the claim's "the caller is a subordinate token of the owning
user"), or the session is a benchmark session. -/

/-- The acceptance condition actually enforced by
`upgrade_to_backup_protocol`: correct owner, or benchmark session. -/
def codeOwnershipAllowed (p : OpenParams) (s : StoreState) : Prop :=
  correctOwner (s.groupOwner.getD p.authId) p.authId ∨
    (p.backupType = "host" ∧ p.backupId = "benchmark" ∧ p.benchmark = true)

instance (p : OpenParams) (s : StoreState) : Decidable (codeOwnershipAllowed p s) := by
  unfold codeOwnershipAllowed; infer_instance

/-- The claim's acceptance condition, as frozen: owner equals caller, or
the caller is a subordinate token of the owning user, or benchmark. -/
def claimOwnershipAllowed (p : OpenParams) (s : StoreState) : Prop :=
  s.groupOwner.getD p.authId = p.authId ∨
    (p.authId.is_token = true ∧ Authid.ofUser p.authId.user = s.groupOwner.getD p.authId) ∨
    (p.backupType = "host" ∧ p.backupId = "benchmark" ∧ p.benchmark = true)

instance (p : OpenParams) (s : StoreState) : Decidable (claimOwnershipAllowed p s) := by
  unfold claimOwnershipAllowed; infer_instance

/-- C3 counterexample: the group is owned by the API token
`alice!t1` and the caller is the plain user `alice`.  The code accepts
the session (the owner is a token of the calling user), yet under the
claim's condition none of the three clauses holds — the caller is not a
token at all. -/
theorem ownership_check_counterexample :
    (upgrade_to_backup_protocol
        ⟨⟨"alice", none⟩, "vm", "100", 100, false, false⟩
        ⟨some ⟨"alice", some "t1"⟩, [], []⟩).1.isOk = true ∧
    ¬ claimOwnershipAllowed
        ⟨⟨"alice", none⟩, "vm", "100", 100, false, false⟩
        ⟨some ⟨"alice", some "t1"⟩, [], []⟩ := by
  exact ⟨by decide, by decide⟩

lemma upgrade_ok_allowed (p : OpenParams) (s : StoreState)
    (h : (upgrade_to_backup_protocol p s).1.isOk = true) : codeOwnershipAllowed p s := by
  unfold upgrade_to_backup_protocol upgrade_to_backup_protocol.upgradeAfterWorkerType at h
  by_cases h1 : p.backupType = "host" ∧ p.backupId = "benchmark"
  · rw [if_pos h1] at h
    by_cases h2 : p.benchmark = false
    · rw [if_pos h2] at h
      exact absurd h (by decide)
    · right
      exact ⟨h1.1, h1.2, by revert h2; cases p.benchmark <;> simp⟩
  · rw [if_neg h1] at h
    by_cases h2 : p.benchmark = true
    · rw [if_pos h2] at h
      exact absurd h (by decide)
    · rw [if_neg h2] at h
      by_cases hc : correctOwner (s.groupOwner.getD p.authId) p.authId
      · exact Or.inl hc
      · rw [if_pos ⟨hc, rfl⟩] at h
        exact absurd h (by decide)

lemma upgrade_not_allowed (p : OpenParams) (s : StoreState)
    (hn : ¬ codeOwnershipAllowed p s) :
    (upgrade_to_backup_protocol p s).1.isOk = false ∧
    (upgrade_to_backup_protocol p s).2 = false := by
  rw [codeOwnershipAllowed, not_or] at hn
  obtain ⟨hno, hnb⟩ := hn
  unfold upgrade_to_backup_protocol upgrade_to_backup_protocol.upgradeAfterWorkerType
  by_cases h1 : p.backupType = "host" ∧ p.backupId = "benchmark"
  · rw [if_pos h1]
    have hb : p.benchmark = false := by
      cases hbv : p.benchmark
      · rfl
      · exact absurd ⟨h1.1, h1.2, hbv⟩ hnb
    rw [if_pos hb]
    exact ⟨rfl, rfl⟩
  · rw [if_neg h1]
    by_cases h2 : p.benchmark = true
    · rw [if_pos h2]
      exact ⟨rfl, rfl⟩
    · rw [if_neg h2, if_pos ⟨hno, rfl⟩]
      exact ⟨rfl, rfl⟩

/-- C3 amended: a session is accepted only if the group owner equals
the caller, or the group owner is a token whose owning user is the
caller, or the session is a benchmark session; any other caller is
rejected before the snapshot directory is created. -/
theorem ownership_check (p : OpenParams) (s : StoreState) :
    ((upgrade_to_backup_protocol p s).1.isOk = true → codeOwnershipAllowed p s) ∧
    (¬ codeOwnershipAllowed p s →
      (upgrade_to_backup_protocol p s).1.isOk = false ∧
      (upgrade_to_backup_protocol p s).2 = false) :=
  ⟨upgrade_ok_allowed p s, upgrade_not_allowed p s⟩

/-- C3 witness: a non-owner, non-benchmark caller (`bob` on a group
owned by `alice`) is rejected and no snapshot directory is created. -/
theorem ownership_check_witness :
    (upgrade_to_backup_protocol
        ⟨⟨"bob", none⟩, "vm", "100", 100, false, false⟩
        ⟨some ⟨"alice", none⟩, [], []⟩).1.isOk = false ∧
    (upgrade_to_backup_protocol
        ⟨⟨"bob", none⟩, "vm", "100", 100, false, false⟩
        ⟨some ⟨"alice", none⟩, [], []⟩).2 = false :=
  (ownership_check ⟨⟨"bob", none⟩, "vm", "100", 100, false, false⟩
      ⟨some ⟨"alice", none⟩, [], []⟩).2 (by decide)

/-! ## C10 — benchmark sessions restricted to host/benchmark -/

/-- C10: a session open with `benchmark = true` is accepted only for the
group `host/benchmark`; opening `host/benchmark` without the benchmark
flag is rejected; and only benchmark sessions bypass the ownership
check. -/
theorem benchmark_restriction (p : OpenParams) (s : StoreState) :
    ((upgrade_to_backup_protocol p s).1.isOk = true → p.benchmark = true →
      p.backupType = "host" ∧ p.backupId = "benchmark") ∧
    (p.backupType = "host" → p.backupId = "benchmark" → p.benchmark = false →
      (upgrade_to_backup_protocol p s).1.isOk = false) ∧
    ((upgrade_to_backup_protocol p s).1.isOk = true →
      ¬ correctOwner (s.groupOwner.getD p.authId) p.authId →
      p.backupType = "host" ∧ p.backupId = "benchmark" ∧ p.benchmark = true) := by
  refine ⟨?_, ?_, ?_⟩
  · intro h hb
    by_cases h1 : p.backupType = "host" ∧ p.backupId = "benchmark"
    · exact h1
    · exfalso
      unfold upgrade_to_backup_protocol at h
      rw [if_neg h1, if_pos hb] at h
      exact absurd h (by decide)
  · intro ht hi hb
    unfold upgrade_to_backup_protocol
    rw [if_pos ⟨ht, hi⟩, if_pos hb]
    rfl
  · intro h hc
    rcases upgrade_ok_allowed p s h with hco | hbench
    · exact absurd hco hc
    · exact hbench

/-- C10 witness: opening `host/benchmark` without the benchmark flag is
rejected. -/
theorem benchmark_restriction_witness :
    (upgrade_to_backup_protocol
        ⟨⟨"alice", none⟩, "host", "benchmark", 100, false, false⟩
        ⟨some ⟨"alice", none⟩, [], []⟩).1.isOk = false :=
  (benchmark_restriction ⟨⟨"alice", none⟩, "host", "benchmark", 100, false, false⟩
      ⟨some ⟨"alice", none⟩, [], []⟩).2.1 rfl rfl rfl

/-! ## C4 — backup-time regression (corrected)

The source compares the new backup time only against the *selected*
previous snapshot.  When the group's most recent snapshot carries a
`Failed` verify-state, no previous snapshot is selected and the
regression check is skipped entirely. -/

/-- C4 counterexample: the group's most recent snapshot has backup time
1000 but verify-state `Failed`; a session open with backup-time 999 is
accepted and a snapshot directory is created, although the claim
requires rejection. -/
theorem backup_time_regression_counterexample :
    lastFinished ([⟨1000, some VerifyState.failed⟩] : List SnapshotInfo)
      = some ⟨1000, some VerifyState.failed⟩ ∧
    (999 : Int) ≤ 1000 ∧
    (upgrade_to_backup_protocol
        ⟨⟨"alice", none⟩, "vm", "100", 999, false, false⟩
        ⟨some ⟨"alice", none⟩, [⟨1000, some VerifyState.failed⟩], []⟩).1.isOk = true ∧
    (upgrade_to_backup_protocol
        ⟨⟨"alice", none⟩, "vm", "100", 999, false, false⟩
        ⟨some ⟨"alice", none⟩, [⟨1000, some VerifyState.failed⟩], []⟩).2 = true := by
  exact ⟨by decide, by decide, by decide, by decide⟩

/-- C4 amended: whenever the session open *selects* a previous snapshot
(the most recent snapshot of the group, provided its verify-state is
not `Failed`) with backup time `T`, opening with `backup-time ≤ T` is
rejected and no snapshot directory is created. -/
theorem backup_time_regression (p : OpenParams) (s : StoreState) (info : SnapshotInfo)
    (hsel : selectedLast s.snapshots = some info) (ht : p.backupTime ≤ info.time) :
    (upgrade_to_backup_protocol p s).1.isOk = false ∧
    (upgrade_to_backup_protocol p s).2 = false := by
  have hreg : timeRegressed (selectedLast s.snapshots) p.backupTime = true := by
    rw [hsel]
    unfold timeRegressed
    exact decide_eq_true ht
  unfold upgrade_to_backup_protocol upgrade_to_backup_protocol.upgradeAfterWorkerType
  by_cases h1 : p.backupType = "host" ∧ p.backupId = "benchmark"
  · rw [if_pos h1]
    by_cases h2 : p.benchmark = false
    · rw [if_pos h2]
      exact ⟨rfl, rfl⟩
    · rw [if_neg h2]
      by_cases hc : ¬ correctOwner (s.groupOwner.getD p.authId) p.authId ∧ (true = false)
      · rw [if_pos hc]
        exact ⟨rfl, rfl⟩
      · rw [if_neg hc, if_pos hreg]
        exact ⟨rfl, rfl⟩
  · rw [if_neg h1]
    by_cases h2 : p.benchmark = true
    · rw [if_pos h2]
      exact ⟨rfl, rfl⟩
    · rw [if_neg h2]
      by_cases hc : ¬ correctOwner (s.groupOwner.getD p.authId) p.authId ∧ (false = false)
      · rw [if_pos hc]
        exact ⟨rfl, rfl⟩
      · rw [if_neg hc, if_pos hreg]
        exact ⟨rfl, rfl⟩

/-- C4 witness: previous snapshot at time 1000 with verify-state `Ok`;
opening with backup-time 999 is rejected without creating a snapshot
directory. -/
theorem backup_time_regression_witness :
    (upgrade_to_backup_protocol
        ⟨⟨"alice", none⟩, "vm", "100", 999, false, false⟩
        ⟨some ⟨"alice", none⟩, [⟨1000, some VerifyState.ok⟩], []⟩).1.isOk = false ∧
    (upgrade_to_backup_protocol
        ⟨⟨"alice", none⟩, "vm", "100", 999, false, false⟩
        ⟨some ⟨"alice", none⟩, [⟨1000, some VerifyState.ok⟩], []⟩).2 = false :=
  backup_time_regression
    ⟨⟨"alice", none⟩, "vm", "100", 999, false, false⟩
    ⟨some ⟨"alice", none⟩, [⟨1000, some VerifyState.ok⟩], []⟩
    ⟨1000, some VerifyState.ok⟩ (by decide) (by decide)

/-! ## C5 — previous-snapshot selection (corrected)

The source takes only *the* most recent snapshot of the group and drops
it when its verify-state is `Failed`; it does not fall back to an older
snapshot whose verify-state is not `Failed`, as the claim's wording
("the most recent snapshot whose verify-state is not Failed")
requires. -/

/-- C5 counterexample: the group holds a snapshot at time 500 with
verify-state `Ok` and one at time 1000 with verify-state `Failed`.  The
spec's selection yields the time-500 snapshot, but the accepted session
carries no previous-snapshot handle at all. -/
theorem previous_snapshot_selection_counterexample :
    specSelectedPrevious ([⟨500, some VerifyState.ok⟩, ⟨1000, some VerifyState.failed⟩] :
        List SnapshotInfo) = some ⟨500, some VerifyState.ok⟩ ∧
    ((upgrade_to_backup_protocol
        ⟨⟨"alice", none⟩, "vm", "100", 2000, false, false⟩
        ⟨some ⟨"alice", none⟩,
          [⟨500, some VerifyState.ok⟩, ⟨1000, some VerifyState.failed⟩], []⟩).1.map
      BackupSession.lastBackup) = .ok none := by
  exact ⟨by decide, rfl⟩

/-- C5 amended: the previous-snapshot handle of an accepted session is
the most recent snapshot of the group if its verify-state is not
`Failed`, and empty otherwise; a snapshot whose manifest carries no
verify-state (or an unparseable one) is treated as valid. -/
theorem previous_snapshot_selection (p : OpenParams) (s : StoreState)
    (sess : BackupSession) (b : Bool)
    (hacc : upgrade_to_backup_protocol p s = (.ok sess, b)) :
    sess.lastBackup = selectedLast s.snapshots ∧
    (∀ info, lastFinished s.snapshots = some info →
      info.verify ≠ some VerifyState.failed → sess.lastBackup = some info) ∧
    (∀ info, lastFinished s.snapshots = some info →
      info.verify = some VerifyState.failed → sess.lastBackup = none) := by
  have hmain : sess.lastBackup = selectedLast s.snapshots := by
    unfold upgrade_to_backup_protocol upgrade_to_backup_protocol.upgradeAfterWorkerType at hacc
    by_cases h1 : p.backupType = "host" ∧ p.backupId = "benchmark"
    · rw [if_pos h1] at hacc
      by_cases h2 : p.benchmark = false
      · rw [if_pos h2] at hacc
        simp at hacc
      · rw [if_neg h2] at hacc
        by_cases hc : ¬ correctOwner (s.groupOwner.getD p.authId) p.authId ∧ (true = false)
        · rw [if_pos hc] at hacc
          simp at hacc
        · rw [if_neg hc] at hacc
          by_cases hr : timeRegressed (selectedLast s.snapshots) p.backupTime = true
          · rw [if_pos hr] at hacc
            simp at hacc
          · rw [if_neg hr] at hacc
            by_cases hd : p.backupTime ∈ s.dirTimes
            · rw [if_pos hd] at hacc
              simp at hacc
            · rw [if_neg hd] at hacc
              have := congrArg (fun q => q.1) hacc
              simp only [Except.ok.injEq] at this
              rw [← this]
    · rw [if_neg h1] at hacc
      by_cases h2 : p.benchmark = true
      · rw [if_pos h2] at hacc
        simp at hacc
      · rw [if_neg h2] at hacc
        by_cases hc : ¬ correctOwner (s.groupOwner.getD p.authId) p.authId ∧ (false = false)
        · rw [if_pos hc] at hacc
          simp at hacc
        · rw [if_neg hc] at hacc
          by_cases hr : timeRegressed (selectedLast s.snapshots) p.backupTime = true
          · rw [if_pos hr] at hacc
            simp at hacc
          · rw [if_neg hr] at hacc
            by_cases hd : p.backupTime ∈ s.dirTimes
            · rw [if_pos hd] at hacc
              simp at hacc
            · rw [if_neg hd] at hacc
              have := congrArg (fun q => q.1) hacc
              simp only [Except.ok.injEq] at this
              rw [← this]
  refine ⟨hmain, ?_, ?_⟩
  · intro info hlf hnf
    rw [hmain]
    unfold selectedLast
    rw [hlf]
    cases hv : info.verify with
    | none => simp [hv]
    | some v =>
      cases v with
      | ok => simp [hv]
      | failed => exact absurd hv hnf
  · intro info hlf hf
    rw [hmain]
    unfold selectedLast
    rw [hlf]
    simp [hf]

/-- C5 witness: an accepted session over a group whose only snapshot has
no verify-state receives that snapshot as previous handle. -/
theorem previous_snapshot_selection_witness :
    (BackupSession.mk ⟨"alice", none⟩ false false (some ⟨1000, none⟩)).lastBackup
      = some ⟨1000, none⟩ :=
  (previous_snapshot_selection
    ⟨⟨"alice", none⟩, "vm", "100", 2000, false, false⟩
    ⟨some ⟨"alice", none⟩, [⟨1000, none⟩], []⟩
    (BackupSession.mk ⟨"alice", none⟩ false false (some ⟨1000, none⟩)) true rfl).2.1
    ⟨1000, none⟩ rfl (by decide)

/-! ## C6 — incremental fixed-writer creation -/

/-- C6: `create_fixed_index` rejects names not ending in `.fidx`; with a
`reuse_csum` it fails when no valid previous backup or no matching
previous index exists, fails with `CsumMismatch` when the previous
index's checksum differs — leaving the environment (hence the open
session) untouched — and on a match registers an incremental writer
whose slots are cloned from the previous index before any append. -/
theorem create_fixed_index_spec (H : List (Option Digest) → Digest) (env : BackupEnv)
    (name : String) (size : Nat) :
    (strEndsWith name (".fidx") = false → ∀ reuse,
      create_fixed_index H env name size reuse = (.error .wrongExtension, env)) ∧
    (∀ csum, strEndsWith name (".fidx") = true → env.lastBackup = none →
      create_fixed_index H env name size (some csum) = (.error .noValidPreviousBackup, env)) ∧
    (∀ csum prev, strEndsWith name (".fidx") = true → env.lastBackup = some prev →
      lookupAssoc prev.fixedIndices name = none →
      create_fixed_index H env name size (some csum) = (.error .noPreviousArchive, env)) ∧
    (∀ csum prev slots, strEndsWith name (".fidx") = true → env.lastBackup = some prev →
      lookupAssoc prev.fixedIndices name = some slots → H slots ≠ csum →
      create_fixed_index H env name size (some csum) = (.error .csumMismatch, env)) ∧
    (∀ csum prev slots, strEndsWith name (".fidx") = true → env.lastBackup = some prev →
      lookupAssoc prev.fixedIndices name = some slots → H slots = csum →
      env.finished = false →
      ((env.fixedWriters.map (fun kv => kv.2.name)).contains name) = false →
      create_fixed_index H env name size (some csum) =
        (.ok env.nextWid,
         { env with
           fixedWriters := (env.nextWid,
             { name := name, slots := slots, size := size,
               chunk_size := 4096 * 1024, incremental := true }) :: env.fixedWriters,
           nextWid := env.nextWid + 1 })) := by
  refine ⟨?_, ?_, ?_, ?_, ?_⟩
  · intro hext reuse
    unfold create_fixed_index
    rw [if_pos (by simp [hext])]
  · intro csum hext hnone
    unfold create_fixed_index
    rw [if_neg (by simp [hext]), hnone]
  · intro csum prev hext hprev hlook
    unfold create_fixed_index
    rw [if_neg (by simp [hext]), hprev]
    simp only
    rw [hlook]
  · intro csum prev slots hext hprev hlook hne
    unfold create_fixed_index
    rw [if_neg (by simp [hext]), hprev]
    simp only
    rw [hlook]
    simp only
    rw [if_pos hne]
  · intro csum prev slots hext hprev hlook heq hfin hname
    unfold create_fixed_index
    rw [if_neg (by simp [hext]), hprev]
    simp only
    rw [hlook]
    simp only
    rw [if_neg (by simp [heq])]
    unfold BackupEnv.register_fixed_writer
    rw [if_neg (by simp [hfin]), if_neg (by rw [hname]; decide)]
    rw [hprev]

/-- C6 witness: a checksum mismatch on `disk.fidx` yields `CsumMismatch`
and returns the environment unchanged (session still open). -/
theorem create_fixed_index_witness :
    create_fixed_index (fun _ => [0])
      ⟨false, some ⟨[("disk.fidx", [some [1]])]⟩, [], [], [], 1⟩
      "disk.fidx" 100 (some [9]) =
    (.error .csumMismatch,
     ⟨false, some ⟨[("disk.fidx", [some [1]])]⟩, [], [], [], 1⟩) :=
  (create_fixed_index_spec (fun _ => [0])
      ⟨false, some ⟨[("disk.fidx", [some [1]])]⟩, [], [], [], 1⟩
      "disk.fidx" 100).2.2.2.1 [9] ⟨[("disk.fidx", [some [1]])]⟩ [some [1]]
    (by decide) rfl (by decide) (by decide)

/-! ## C7 — referential integrity of appends -/

lemma dynamic_writer_append_chunk_known (env : BackupEnv) (wid offset size : Nat)
    (digest : Digest) (env1 : BackupEnv)
    (h : env.dynamic_writer_append_chunk wid offset size digest = .ok env1) :
    env1.knownChunks = env.knownChunks := by
  unfold BackupEnv.dynamic_writer_append_chunk at h
  by_cases hf : env.finished = true
  · rw [if_pos hf] at h
    exact absurd h (by simp)
  · rw [if_neg hf] at h
    cases hw : lookupAssoc env.dynWriters wid with
    | none =>
      rw [hw] at h
      exact absurd h (by simp)
    | some w =>
      rw [hw] at h
      simp only at h
      by_cases h1 : offset < w.offset
      · rw [if_pos h1] at h
        exact absurd h (by simp)
      · rw [if_neg h1] at h
        by_cases h2 : offset ≠ w.offset
        · rw [if_pos h2] at h
          exact absurd h (by simp)
        · rw [if_neg h2] at h
          simp only [Except.ok.injEq] at h
          rw [← h]

lemma fixed_writer_append_chunk_known (env : BackupEnv) (wid offset size : Nat)
    (digest : Digest) (env1 : BackupEnv)
    (h : env.fixed_writer_append_chunk wid offset size digest = .ok env1) :
    env1.knownChunks = env.knownChunks := by
  unfold BackupEnv.fixed_writer_append_chunk at h
  by_cases hf : env.finished = true
  · rw [if_pos hf] at h
    exact absurd h (by simp)
  · rw [if_neg hf] at h
    cases hw : lookupAssoc env.fixedWriters wid with
    | none =>
      rw [hw] at h
      exact absurd h (by simp)
    | some w =>
      rw [hw] at h
      simp only at h
      by_cases h1 : offset + size > w.size
      · rw [if_pos h1] at h
        exact absurd h (by simp)
      · rw [if_neg h1] at h
        by_cases h2 : offset % w.chunk_size ≠ 0
        · rw [if_pos h2] at h
          exact absurd h (by simp)
        · rw [if_neg h2] at h
          by_cases h3 : (if offset + w.chunk_size ≤ w.size then size ≠ w.chunk_size
              else size ≠ w.size - offset)
          · rw [if_pos h3] at h
            exact absurd h (by simp)
          · rw [if_neg h3] at h
            simp only [Except.ok.injEq] at h
            rw [← h]

lemma dynamic_append_all_known (env : BackupEnv) (wid : Nat) (entries : List (Nat × Digest))
    (hok : (dynamic_append env wid entries).1 = .ok ()) :
    ∀ e ∈ entries, (env.lookup_chunk e.2).isSome = true := by
  induction entries generalizing env with
  | nil =>
    intro e he
    exact absurd he (List.not_mem_nil e)
  | cons hd tl ih =>
    intro e he
    obtain ⟨o, d⟩ := hd
    unfold dynamic_append at hok
    cases hlk : env.lookup_chunk d with
    | none =>
      rw [hlk] at hok
      exact absurd hok (by simp)
    | some sz =>
      rw [hlk] at hok
      dsimp only at hok
      cases hap : env.dynamic_writer_append_chunk wid o sz d with
      | error e2 =>
        rw [hap] at hok
        exact absurd hok (by simp)
      | ok env1 =>
        rw [hap] at hok
        dsimp only at hok
        rcases List.mem_cons.mp he with he | he
        · rw [he]
          simp [hlk]
        · have hk := dynamic_writer_append_chunk_known env wid o sz d env1 hap
          have hrest := ih env1 hok e he
          unfold BackupEnv.lookup_chunk at hrest ⊢
          rw [← hk]
          exact hrest

lemma fixed_append_all_known (env : BackupEnv) (wid : Nat) (entries : List (Nat × Digest))
    (hok : (fixed_append env wid entries).1 = .ok ()) :
    ∀ e ∈ entries, (env.lookup_chunk e.2).isSome = true := by
  induction entries generalizing env with
  | nil =>
    intro e he
    exact absurd he (List.not_mem_nil e)
  | cons hd tl ih =>
    intro e he
    obtain ⟨o, d⟩ := hd
    unfold fixed_append at hok
    cases hlk : env.lookup_chunk d with
    | none =>
      rw [hlk] at hok
      exact absurd hok (by simp)
    | some sz =>
      rw [hlk] at hok
      dsimp only at hok
      cases hap : env.fixed_writer_append_chunk wid o sz d with
      | error e2 =>
        rw [hap] at hok
        exact absurd hok (by simp)
      | ok env1 =>
        rw [hap] at hok
        dsimp only at hok
        rcases List.mem_cons.mp he with he | he
        · rw [he]
          simp [hlk]
        · have hk := fixed_writer_append_chunk_known env wid o sz d env1 hap
          have hrest := ih env1 hok e he
          unfold BackupEnv.lookup_chunk at hrest ⊢
          rw [← hk]
          exact hrest

/-- C7: every `(offset, digest)` pair accepted by `dynamic_append` or
`fixed_append` has its digest in the session's registered-chunk map, and
an append whose first entry names an unregistered digest fails with
`UnknownChunk` leaving the environment — writer positions and the open
session — completely unchanged. -/
theorem append_referential_integrity :
    (∀ env wid entries, (dynamic_append env wid entries).1 = .ok () →
      ∀ e ∈ entries, (BackupEnv.lookup_chunk env e.2).isSome = true) ∧
    (∀ env wid off d rest, BackupEnv.lookup_chunk env d = none →
      dynamic_append env wid ((off, d) :: rest) = (.error .unknownChunk, env)) ∧
    (∀ env wid entries, (fixed_append env wid entries).1 = .ok () →
      ∀ e ∈ entries, (BackupEnv.lookup_chunk env e.2).isSome = true) ∧
    (∀ env wid off d rest, BackupEnv.lookup_chunk env d = none →
      fixed_append env wid ((off, d) :: rest) = (.error .unknownChunk, env)) := by
  refine ⟨dynamic_append_all_known, ?_, fixed_append_all_known, ?_⟩
  · intro env wid off d rest hlk
    unfold dynamic_append
    rw [hlk]
  · intro env wid off d rest hlk
    unfold fixed_append
    rw [hlk]

/-- C7 witness: appending an unregistered digest to a fresh dynamic
writer fails with `UnknownChunk` and leaves the environment unchanged. -/
theorem append_referential_integrity_witness :
    dynamic_append ⟨false, none, [], [], [(1, ⟨"x.didx", 0, 0, []⟩)], 2⟩ 1 [(0, [3])] =
      (.error .unknownChunk, ⟨false, none, [], [], [(1, ⟨"x.didx", 0, 0, []⟩)], 2⟩) :=
  append_referential_integrity.2.1 ⟨false, none, [], [], [(1, ⟨"x.didx", 0, 0, []⟩)], 2⟩
    1 0 [3] [] rfl

end PBS
